import Mathlib

/-!
Shallow embedding of the per-user reminder scheduler of
`ucl-timetable-bot` (`src/scheduler/scheduler.go`).

External collaborators (Telegram API, SQLite user store, webcal fetching
and parsing, time-of-day computation from the `utils` package) are
modelled as an `Env` of pure functions: the scheduler code only observes
their results.  Go `time.Time` values are modelled as integers (minutes
for instants, day numbers for calendar days, with day `d` having Go
weekday `d % 7`, day 0 being a Sunday).  A `*time.Timer` is modelled as
an index into a table of `TimerInfo` records; `time.AfterFunc` appends a
fresh armed record, `Timer.Stop` clears the `active` flag, and firing a
timer is an explicit `fireTimer` step that runs the Go closure's body.
`database.GetUser` returns `(*User, error)`; per the store's contract a
lookup error yields a nil pointer, and the scheduler inspects only the
pointer (discarding `err` everywhere except `ScheduleUser`, whose
`err != nil || user == nil` test collapses to the same condition), so it
is modelled as `ChatID → Option User`.
-/

namespace UclBot

abbrev ChatID := Int
abbrev TimerId := Nat

/-- The fields of the stored user record that `scheduler.go` reads. -/
structure User where
  dailyTime : String
  weeklyTime : String
  webCalURL : String
  /-- result of `strconv.Atoi(user.ReminderOffset)`: `none` models a
  parse failure, in which case the code falls back to 15 minutes. -/
  reminderOffset : Option Int
deriving DecidableEq

/-- A lecture event as consumed by the scheduler: `timetable.Lecture`'s
`Title`, `Location` and `Start` fields. -/
structure Lecture where
  title : String
  location : String
  start : Int
deriving DecidableEq

/-- Which closure a timer was armed with (`time.AfterFunc` call sites in
`scheduler.go`). -/
inductive TimerKind
  | daily
  | weekly
  | lectureScheduler
  | lecture
deriving DecidableEq

/-- One created timer: its closure's identity (kind, chat, captured
reminder text), its scheduled fire instant, and whether it is still
armed (`active = false` once stopped or fired). -/
structure TimerInfo where
  kind : TimerKind
  chatID : ChatID
  fireTime : Int
  active : Bool
  msg : String
deriving DecidableEq

/-- Go struct `UserTimers` (scheduler.go lines 25-30): timer handles are
table indices; `none` models a nil pointer field. -/
structure UserTimers where
  dailyTimer : Option TimerId
  weeklyTimer : Option TimerId
  lectureTimers : List TimerId
  lectureScheduler : Option TimerId
deriving DecidableEq

/-- `&UserTimers{}` — the zero value installed by `ScheduleUser`. -/
def UserTimers.empty : UserTimers :=
  { dailyTimer := none, weeklyTimer := none, lectureTimers := [], lectureScheduler := none }

/-- All timer handles held by a `UserTimers` bundle (in the order
`CancelUser` stops them). -/
def UserTimers.refs (ts : UserTimers) : List TimerId :=
  ts.dailyTimer.toList ++ (ts.weeklyTimer.toList ++ (ts.lectureScheduler.toList ++ ts.lectureTimers))

/-- The external collaborators, snapshotted as pure functions.  A
calendar handle (`*ics.Calendar`) is an opaque `Nat`.  `Except.error e`
carries `err.Error()` as the digest code concatenates it into messages. -/
structure Env where
  getUser : ChatID → Option User
  fetchCalendar : String → Except String Nat
  getLectures : Nat → Int → Except String (List Lecture)
  getLecturesInRange : Nat → Int → Int → Except String (List (String × List Lecture))
  /-- `time.Now().In(ukLocation)` as an instant (minutes). -/
  now : Int
  /-- `time.Now().In(ukLocation)` truncated to its calendar day. -/
  today : Int
  /-- the instant of the next local midnight-plus-one-second
  (scheduler.go line 78). -/
  nextMidnight : Int
  /-- `utils.GetNextTime` — next daily fire instant. -/
  getNextTime : String → Int
  /-- `utils.GetNextWeekTime` — next weekly fire instant. -/
  getNextWeekTime : String → Int
  /-- `timetable.CleanTitle`. -/
  cleanTitle : String → String
  /-- `timetable.FormatLectures`. -/
  formatLectures : List Lecture → String
  /-- `Format("Mon, 02 Jan")` / `Format("Fri, 02 Jan")` — both layouts
  print the abbreviated weekday of the value, so one function. -/
  formatAbbrevDate : Int → String
  /-- `Format("Monday")` — full weekday name of a day. -/
  formatDayName : Int → String

/-- The `Scheduler` struct's mutable state plus the timer table and the
log of messages handed to the Telegram API. -/
structure SchedState where
  timers : List (ChatID × UserTimers)
  timerTab : TimerId → Option TimerInfo
  nextId : TimerId
  sent : List (ChatID × String)

/-- `make(map[int64]*UserTimers)` in `NewScheduler`, with no timers yet. -/
def SchedState.initial : SchedState :=
  { timers := [], timerTab := fun _ => none, nextId := 0, sent := [] }

/- Go map operations on the association list `timers` (keys are unique
in a Go map; the list operations preserve that, proved below). -/

/-- `s.timers[chatID]` (lookup). -/
def mapGet : List (ChatID × UserTimers) → ChatID → Option UserTimers
  | [], _ => none
  | (k, v) :: rest, c => if k = c then some v else mapGet rest c

/-- `s.timers[chatID] = v` (insert or replace). -/
def mapSet : List (ChatID × UserTimers) → ChatID → UserTimers → List (ChatID × UserTimers)
  | [], c, v => [(c, v)]
  | (k, w) :: rest, c, v => if k = c then (c, v) :: rest else (k, w) :: mapSet rest c v

/-- `delete(s.timers, chatID)`. -/
def mapDelete : List (ChatID × UserTimers) → ChatID → List (ChatID × UserTimers)
  | [], _ => []
  | (k, w) :: rest, c => if k = c then mapDelete rest c else (k, w) :: mapDelete rest c

/-- Mutation of a field of the struct `s.timers[chatID]` points to,
e.g. `s.timers[chatID].dailyTimer = t`.  (In Go this dereferences the
pointer and panics when the entry is absent; every call site in
`scheduler.go` runs with the entry present, and the model is then a
no-op on the absent case.) -/
def mapUpdate (f : UserTimers → UserTimers) : List (ChatID × UserTimers) → ChatID → List (ChatID × UserTimers)
  | [], _ => []
  | (k, w) :: rest, c => if k = c then (k, f w) :: mapUpdate f rest c else (k, w) :: mapUpdate f rest c

/- Timer-table primitives. -/

/-- `time.AfterFunc`: the fresh timer gets handle `st.nextId`. -/
def addTimer (st : SchedState) (info : TimerInfo) : SchedState :=
  { st with
    timerTab := fun t => if t = st.nextId then some info else st.timerTab t
    nextId := st.nextId + 1 }

def TimerInfo.deactivate (i : TimerInfo) : TimerInfo :=
  { i with active := false }

/-- `timer.Stop()`: disarms; a no-op on an already fired or stopped
timer (Go returns `false` there; the result is discarded everywhere). -/
def stopTimer (st : SchedState) (tid : TimerId) : SchedState :=
  { st with timerTab := fun t => if t = tid then (st.timerTab t).map TimerInfo.deactivate else st.timerTab t }

/-- `if t != nil { t.Stop() }`. -/
def stopOpt (st : SchedState) (o : Option TimerId) : SchedState :=
  match o with
  | some tid => stopTimer st tid
  | none => st

/-- Is handle `tid` currently an armed timer? -/
def isActive (st : SchedState) (tid : TimerId) : Bool :=
  match st.timerTab tid with
  | some info => info.active
  | none => false

/-- Is handle `tid` an armed timer of kind `k` belonging to chat `c`? -/
def activeKind (st : SchedState) (k : TimerKind) (c : ChatID) (tid : TimerId) : Bool :=
  match st.timerTab tid with
  | some info => info.active && info.kind == k && info.chatID == c
  | none => false

/-- `s.sendMessage(chatID, text)`: hands the message to the API; a
delivery failure is only logged, so the model records the attempt. -/
def sendMessage (st : SchedState) (c : ChatID) (text : String) : SchedState :=
  { st with sent := st.sent ++ [(c, text)] }

/- The scheduler operations (scheduler.go lines 47-245). -/

/-- `CancelUser` (lines 223-239). -/
def CancelUser (st : SchedState) (c : ChatID) : SchedState :=
  match mapGet st.timers c with
  | none => st
  | some ts =>
    let st1 := stopOpt st ts.dailyTimer
    let st2 := stopOpt st1 ts.weeklyTimer
    let st3 := stopOpt st2 ts.lectureScheduler
    let st4 := ts.lectureTimers.foldl stopTimer st3
    { st4 with timers := mapDelete st4.timers c }

/-- The reminder text built by the lecture timer's closure
(lines 128-132). -/
def reminderText (env : Env) (offsetMinutes : Int) (lecture : Lecture) : String :=
  "⏰ *" ++ env.cleanTitle lecture.title ++ "* in " ++ toString offsetMinutes ++
    " minutes at " ++ lecture.location

/-- One iteration of the arming loop of `scheduleLectureReminders`
(lines 122-137): arm a one-shot timer iff `reminderTime.After(now)`. -/
def armLecture (env : Env) (c : ChatID) (offsetMinutes : Int)
    (acc : List TimerId × SchedState) (lecture : Lecture) : List TimerId × SchedState :=
  let reminderTime := lecture.start - offsetMinutes
  if env.now < reminderTime then
    (acc.1 ++ [acc.2.nextId],
     addTimer acc.2
       { kind := TimerKind.lecture, chatID := c, fireTime := reminderTime,
         active := true, msg := reminderText env offsetMinutes lecture })
  else
    acc

/-- The record a lecture-reminder timer is armed with by `armLecture`. -/
def lectureInfo (env : Env) (c : ChatID) (offsetMinutes : Int) (lecture : Lecture) : TimerInfo :=
  { kind := TimerKind.lecture, chatID := c, fireTime := lecture.start - offsetMinutes,
    active := true, msg := reminderText env offsetMinutes lecture }

/-- The arming condition `reminderTime.After(now)` (line 124), as a
Boolean predicate on lectures. -/
def futureP (env : Env) (offsetMinutes : Int) (lecture : Lecture) : Bool :=
  decide (env.now < lecture.start - offsetMinutes)

/-- The cancellation step of `scheduleLectureReminders` (lines 91-96):
if the user has an entry, stop every currently armed lecture-reminder
timer and clear the recorded list. -/
def clearLectureTimers (st : SchedState) (c : ChatID) : SchedState :=
  match mapGet st.timers c with
  | some ts =>
    let sA := ts.lectureTimers.foldl stopTimer st
    { sA with timers := mapUpdate (fun t => { t with lectureTimers := [] }) sA.timers c }
  | none => st

/-- `scheduleLectureReminders` (lines 90-139). -/
def scheduleLectureReminders (env : Env) (st : SchedState) (c : ChatID) : SchedState :=
  let st1 := clearLectureTimers st c
  match env.getUser c with
  | none => st1
  | some user =>
    if user.webCalURL = "" then st1
    else
      match env.fetchCalendar user.webCalURL with
      | Except.error _ => st1
      | Except.ok cal =>
        match env.getLectures cal env.today with
        | Except.error _ => st1
        | Except.ok lectures =>
          if lectures.length = 0 then st1
          else
            let offsetMinutes := user.reminderOffset.getD 15
            let res := lectures.foldl (armLecture env c offsetMinutes) ([], st1)
            { res.2 with timers := mapUpdate (fun t => { t with lectureTimers := res.1 }) res.2.timers c }

/-- The record the midnight-replanner timer is armed with
(lines 78-84). -/
def midnightInfo (env : Env) (c : ChatID) : TimerInfo :=
  { kind := TimerKind.lectureScheduler, chatID := c, fireTime := env.nextMidnight,
    active := true, msg := "" }

/-- Lines 77-85: arm the one-shot midnight replanner and record its
handle. -/
def armMidnight (env : Env) (st : SchedState) (c : ChatID) : SchedState :=
  let m := st.nextId
  let st1 := addTimer st (midnightInfo env c)
  { st1 with timers := mapUpdate (fun ts => { ts with lectureScheduler := some m }) st1.timers c }

/-- `scheduleLectureRemindersAtMidnight` (lines 76-88): arm the
midnight replanner, record its handle, then replan immediately. -/
def scheduleLectureRemindersAtMidnight (env : Env) (st : SchedState) (c : ChatID) : SchedState :=
  scheduleLectureReminders env (armMidnight env st c) c

/-- `s.timers[chatID] = &UserTimers{}` (line 55). -/
def installEmpty (st : SchedState) (c : ChatID) : SchedState :=
  { st with timers := mapSet st.timers c UserTimers.empty }

/-- The record the daily timer is armed with (lines 57-62). -/
def dailyInfo (env : Env) (c : ChatID) (user : User) : TimerInfo :=
  { kind := TimerKind.daily, chatID := c, fireTime := env.getNextTime user.dailyTime,
    active := true, msg := "" }

/-- The record the weekly timer is armed with (lines 65-70). -/
def weeklyInfo (env : Env) (c : ChatID) (user : User) : TimerInfo :=
  { kind := TimerKind.weekly, chatID := c, fireTime := env.getNextWeekTime user.weeklyTime,
    active := true, msg := "" }

/-- Lines 57-63: compute the next daily fire instant, arm a one-shot
daily timer with `time.AfterFunc`, and record its handle in the
daily slot. -/
def armDaily (env : Env) (st : SchedState) (c : ChatID) (user : User) : SchedState :=
  let d := st.nextId
  let st1 := addTimer st (dailyInfo env c user)
  { st1 with timers := mapUpdate (fun ts => { ts with dailyTimer := some d }) st1.timers c }

/-- Lines 65-71: the same for the weekly timer. -/
def armWeekly (env : Env) (st : SchedState) (c : ChatID) (user : User) : SchedState :=
  let w := st.nextId
  let st1 := addTimer st (weeklyInfo env c user)
  { st1 with timers := mapUpdate (fun ts => { ts with weeklyTimer := some w }) st1.timers c }

/-- `ScheduleUser` (lines 47-74): bail out if the user record is
unreadable, else cancel any existing set, install a fresh empty set,
arm the daily and weekly timers, then arm the midnight replanner and
replan once. -/
def ScheduleUser (env : Env) (st : SchedState) (c : ChatID) : SchedState :=
  match env.getUser c with
  | none => st
  | some user =>
    scheduleLectureRemindersAtMidnight env
      (armWeekly env (armDaily env (installEmpty (CancelUser st c) c) c user) c user) c

/-- `StopAll` (lines 241-245): cancel every currently scheduled
identity. -/
def StopAll (st : SchedState) : SchedState :=
  (st.timers.map Prod.fst).foldl CancelUser st

/-- `sendDailyTimetable` (lines 141-166). -/
def sendDailyTimetable (env : Env) (st : SchedState) (c : ChatID) : SchedState :=
  match env.getUser c with
  | none => sendMessage st c "Please set your calendar link using /set_calendar"
  | some user =>
    if user.webCalURL = "" then
      sendMessage st c "Please set your calendar link using /set_calendar"
    else
      match env.fetchCalendar user.webCalURL with
      | Except.error e => sendMessage st c ("Error fetching calendar: " ++ e)
      | Except.ok cal =>
        match env.getLectures cal env.today with
        | Except.error e => sendMessage st c ("Error processing calendar: " ++ e)
        | Except.ok lectures =>
          if lectures.length = 0 then sendMessage st c "No lectures today."
          else
            sendMessage st c
              ("*" ++ env.formatAbbrevDate env.today ++ ":*\n\n" ++ env.formatLectures lectures)

/-- Go weekday of a model day number: `0 = Sunday, …, 6 = Saturday`
(day 0 is fixed to be a Sunday). -/
def goWeekday (d : Int) : Int := d % 7

/-- The Monday-to-Friday window computed by `sendWeeklyTimetable`
(lines 180-186): Sunday is renumbered to 7, then
`weekStart = now - (weekday-1)` and `weekEnd = weekStart + 4`. -/
def weekWindow (today : Int) : Int × Int :=
  let wd := goWeekday today
  let weekday := if wd = 0 then 7 else wd
  let weekStart := today - (weekday - 1)
  (weekStart, weekStart + 4)

/-- The list of days iterated by the `for day := weekStart;
!day.After(weekEnd); day = day.AddDate(0,0,1)` loop (lines 203-211). -/
def daysList (weekStart weekEnd : Int) : List Int :=
  (List.range (weekEnd - weekStart + 1).toNat).map (fun i => weekStart + (i : Int))

/-- The grouped weekly message built by lines 197-211. -/
def weeklyMessage (env : Env) (weekStart weekEnd : Int)
    (lecturesMap : List (String × List Lecture)) : String :=
  let header := "*" ++ env.formatAbbrevDate weekStart ++ " - " ++ env.formatAbbrevDate weekEnd ++ ":*\n\n"
  (daysList weekStart weekEnd).foldl
    (fun sb day =>
      let dayKey := env.formatDayName day
      match List.lookup dayKey lecturesMap with
      | some lectures => sb ++ "\n" ++ "*" ++ dayKey ++ "*" ++ "\n" ++ env.formatLectures lectures
      | none => sb)
    header

/-- `sendWeeklyTimetable` (lines 168-213). -/
def sendWeeklyTimetable (env : Env) (st : SchedState) (c : ChatID) : SchedState :=
  match env.getUser c with
  | none => sendMessage st c "Please set your calendar link using /set_calendar"
  | some user =>
    if user.webCalURL = "" then
      sendMessage st c "Please set your calendar link using /set_calendar"
    else
      match env.fetchCalendar user.webCalURL with
      | Except.error e => sendMessage st c ("Error fetching calendar: " ++ e)
      | Except.ok cal =>
        let win := weekWindow env.today
        match env.getLecturesInRange cal win.1 win.2 with
        | Except.error e => sendMessage st c ("Error processing calendar: " ++ e)
        | Except.ok lecturesMap =>
          if lecturesMap.length = 0 then sendMessage st c "No lectures this week."
          else sendMessage st c (weeklyMessage env win.1 win.2 lecturesMap)

/-- ISO weekday of a model day: Monday = 1 … Sunday = 7 (what the code's
`if weekday == 0 { weekday = 7 }` renumbering computes). -/
def isoWeekday (d : Int) : Int :=
  if goWeekday d = 0 then 7 else goWeekday d

/-- Modelled from the spec's words (refinement target for the weekly
window): "compute the current week's Monday–Friday window
(Saturday/Sunday roll forward to next Monday's window …)"; on Monday
through Friday the same week's Monday, on Saturday/Sunday the NEXT
Monday. -/
def specWeekWindow (today : Int) : Int × Int :=
  if isoWeekday today ≤ 5 then
    (today - (isoWeekday today - 1), today - (isoWeekday today - 1) + 4)
  else
    (today + (8 - isoWeekday today), today + (8 - isoWeekday today) + 4)

/-- The disjunction of conditions under which `scheduleLectureReminders`
returns before arming anything (lines 98-112): missing or unreadable
user record, no calendar link, fetch failure, lecture-extraction
failure, or zero lectures. -/
def replanFails (env : Env) (c : ChatID) : Prop :=
  match env.getUser c with
  | none => True
  | some user =>
    user.webCalURL = "" ∨
      match env.fetchCalendar user.webCalURL with
      | Except.error _ => True
      | Except.ok cal =>
        match env.getLectures cal env.today with
        | Except.error _ => True
        | Except.ok lectures => lectures = []

/-- Number of entries the mapping holds for identity `c` (a Go map can
hold at most one, and the operations preserve that). -/
def keyCount : List (ChatID × UserTimers) → ChatID → Nat
  | [], _ => 0
  | (k, _) :: rest, c => (if k = c then 1 else 0) + keyCount rest c

/-- Ownership invariant for identity `c`: every armed timer whose
closure targets chat `c` is recorded in `c`'s timer-set entry, in the
slot matching its kind.  It holds for the empty initial state and is
what `ScheduleUser`'s cancel-then-recreate discipline maintains. -/
def OwnedAt (st : SchedState) (c : ChatID) : Prop :=
  ∀ t info, st.timerTab t = some info → info.active = true → info.chatID = c →
    ∃ ts, mapGet st.timers c = some ts ∧
      (match info.kind with
       | TimerKind.daily => ts.dailyTimer = some t
       | TimerKind.weekly => ts.weeklyTimer = some t
       | TimerKind.lectureScheduler => ts.lectureScheduler = some t
       | TimerKind.lecture => t ∈ ts.lectureTimers)

/- Concrete fixtures used by the witness theorems. -/

def userNoCal : User :=
  { dailyTime := "18:00", weeklyTime := "18:00", webCalURL := "", reminderOffset := none }

def userCal : User :=
  { dailyTime := "08:00", weeklyTime := "08:00", webCalURL := "webcal://x", reminderOffset := some 15 }

/-- A lecture starting at 10:45 (in minutes): its 15-minute reminder
instant 10:30 equals the replan instant, so it must be skipped. -/
def lecBoundary : Lecture := { title := "Algorithms", location := "Room 1", start := 645 }

/-- A lecture starting at 14:00: its reminder instant 13:45 is in the
future at 10:30, so it must be armed. -/
def lecFuture : Lecture := { title := "Logic", location := "Room 2", start := 840 }

def envBase : Env :=
  { getUser := fun _ => some userNoCal
    fetchCalendar := fun _ => Except.error "boom"
    getLectures := fun _ _ => Except.error "boom"
    getLecturesInRange := fun _ _ _ => Except.error "boom"
    now := 630
    today := 3
    nextMidnight := 1441
    getNextTime := fun _ => 700
    getNextWeekTime := fun _ => 900
    cleanTitle := fun s => s
    formatLectures := fun _ => "L"
    formatAbbrevDate := fun _ => "D"
    formatDayName := fun _ => "Mon" }

def envNoUser : Env := { envBase with getUser := fun _ => none }

def envLectures : Env :=
  { envBase with
    getUser := fun _ => some userCal
    fetchCalendar := fun _ => Except.ok 0
    getLectures := fun _ _ => Except.ok [lecBoundary, lecFuture] }

/-- A state with one scheduled user (chat 1) holding three armed
timers. -/
def stOne : SchedState :=
  { timers := [(1, { dailyTimer := some 0, weeklyTimer := some 1, lectureTimers := [2], lectureScheduler := none })]
    timerTab := fun t =>
      if t = 0 then some { kind := TimerKind.daily, chatID := 1, fireTime := 700, active := true, msg := "" }
      else if t = 1 then some { kind := TimerKind.weekly, chatID := 1, fireTime := 900, active := true, msg := "" }
      else if t = 2 then some { kind := TimerKind.lecture, chatID := 1, fireTime := 645, active := true, msg := "m" }
      else none
    nextId := 3
    sent := [] }

/-- The final state of one possible interleaving of two concurrent
`ScheduleUser(1)` invocations A and B (the `Scheduler` struct, lines
19-23, holds no lock, and the daily/weekly `AfterFunc` callbacks
re-invoke `ScheduleUser` from their own goroutines, so the five
sub-steps of two invocations may interleave):
A: cancel, install; B: cancel, install, arm-daily; A: arm-daily,
arm-weekly, midnight; B: arm-weekly, midnight. -/
def interleavedC9 : SchedState :=
  scheduleLectureRemindersAtMidnight envBase
    (armWeekly envBase
      (scheduleLectureRemindersAtMidnight envBase
        (armWeekly envBase
          (armDaily envBase
            (armDaily envBase
              (installEmpty (CancelUser (installEmpty (CancelUser SchedState.initial 1) 1) 1) 1)
              1 userNoCal)
            1 userNoCal)
          1 userNoCal)
        1)
      1 userNoCal)
    1

/-- Firing of an armed timer: the timer transitions out of `armed`, then
its `time.AfterFunc` closure body runs (lines 59-62, 67-70, 81-84,
127-134).  A stopped or already-fired timer cannot fire. -/
def fireTimer (env : Env) (st : SchedState) (tid : TimerId) : SchedState :=
  match st.timerTab tid with
  | none => st
  | some info =>
    if info.active then
      let st1 := stopTimer st tid
      match info.kind with
      | TimerKind.daily => ScheduleUser env (sendDailyTimetable env st1 info.chatID) info.chatID
      | TimerKind.weekly => ScheduleUser env (sendWeeklyTimetable env st1 info.chatID) info.chatID
      | TimerKind.lectureScheduler =>
        scheduleLectureRemindersAtMidnight env (scheduleLectureReminders env st1 info.chatID) info.chatID
      | TimerKind.lecture => sendMessage st1 info.chatID info.msg
    else st

/-! ## Basic lemmas about the timer table and the identity map -/

theorem stopTimer_timers (st : SchedState) (tid : TimerId) :
    (stopTimer st tid).timers = st.timers := rfl

theorem stopTimer_nextId (st : SchedState) (tid : TimerId) :
    (stopTimer st tid).nextId = st.nextId := rfl

theorem stopTimer_sent (st : SchedState) (tid : TimerId) :
    (stopTimer st tid).sent = st.sent := rfl

theorem stopOpt_timers (st : SchedState) (o : Option TimerId) :
    (stopOpt st o).timers = st.timers := by
  cases o <;> rfl

theorem stopOpt_nextId (st : SchedState) (o : Option TimerId) :
    (stopOpt st o).nextId = st.nextId := by
  cases o <;> rfl

theorem stopOpt_sent (st : SchedState) (o : Option TimerId) :
    (stopOpt st o).sent = st.sent := by
  cases o <;> rfl

theorem foldl_stopTimer_timers (l : List TimerId) (st : SchedState) :
    (l.foldl stopTimer st).timers = st.timers := by
  induction l generalizing st with
  | nil => rfl
  | cons t rest ih => simpa using ih (stopTimer st t)

theorem foldl_stopTimer_nextId (l : List TimerId) (st : SchedState) :
    (l.foldl stopTimer st).nextId = st.nextId := by
  induction l generalizing st with
  | nil => rfl
  | cons t rest ih => simpa using ih (stopTimer st t)

theorem foldl_stopTimer_sent (l : List TimerId) (st : SchedState) :
    (l.foldl stopTimer st).sent = st.sent := by
  induction l generalizing st with
  | nil => rfl
  | cons t rest ih => simpa using ih (stopTimer st t)

theorem mapGet_mapDelete_self (l : List (ChatID × UserTimers)) (c : ChatID) :
    mapGet (mapDelete l c) c = none := by
  induction l with
  | nil => rfl
  | cons p rest ih =>
    obtain ⟨k, v⟩ := p
    unfold mapDelete
    by_cases h : k = c
    · rw [if_pos h]; exact ih
    · rw [if_neg h]
      unfold mapGet
      rw [if_neg h]
      exact ih

theorem mapDelete_absent (l : List (ChatID × UserTimers)) (c : ChatID)
    (h : mapGet l c = none) : mapDelete l c = l := by
  induction l with
  | nil => rfl
  | cons p rest ih =>
    obtain ⟨k, v⟩ := p
    unfold mapGet at h
    by_cases hk : k = c
    · rw [if_pos hk] at h; exact absurd h (by simp)
    · rw [if_neg hk] at h
      unfold mapDelete
      rw [if_neg hk, ih h]

theorem CancelUser_timers (st : SchedState) (c : ChatID) :
    (CancelUser st c).timers = mapDelete st.timers c := by
  unfold CancelUser
  cases h : mapGet st.timers c with
  | none => exact (mapDelete_absent st.timers c h).symm
  | some ts =>
    dsimp only
    rw [foldl_stopTimer_timers, stopOpt_timers, stopOpt_timers, stopOpt_timers]

theorem CancelUser_nextId (st : SchedState) (c : ChatID) :
    (CancelUser st c).nextId = st.nextId := by
  unfold CancelUser
  cases h : mapGet st.timers c with
  | none => rfl
  | some ts =>
    dsimp only
    rw [foldl_stopTimer_nextId, stopOpt_nextId, stopOpt_nextId, stopOpt_nextId]

theorem CancelUser_sent (st : SchedState) (c : ChatID) :
    (CancelUser st c).sent = st.sent := by
  unfold CancelUser
  cases h : mapGet st.timers c with
  | none => rfl
  | some ts =>
    dsimp only
    rw [foldl_stopTimer_sent, stopOpt_sent, stopOpt_sent, stopOpt_sent]

theorem CancelUser_absent (st : SchedState) (c : ChatID)
    (h : mapGet st.timers c = none) : CancelUser st c = st := by
  unfold CancelUser
  rw [h]

theorem stopTimer_tab (st : SchedState) (tid t : TimerId) :
    (stopTimer st tid).timerTab t =
      if t = tid then (st.timerTab t).map TimerInfo.deactivate else st.timerTab t := rfl

theorem deactivate_map_idem (o : Option TimerInfo) :
    (o.map TimerInfo.deactivate).map TimerInfo.deactivate = o.map TimerInfo.deactivate := by
  cases o <;> rfl

theorem deactivate_comp :
    TimerInfo.deactivate ∘ TimerInfo.deactivate = TimerInfo.deactivate := by
  funext i
  rfl

theorem foldl_stopTimer_tab (l : List TimerId) (st : SchedState) (t : TimerId) :
    (l.foldl stopTimer st).timerTab t =
      if t ∈ l then (st.timerTab t).map TimerInfo.deactivate else st.timerTab t := by
  induction l generalizing st with
  | nil => simp
  | cons a rest ih =>
    simp only [List.foldl_cons]
    rw [ih, stopTimer_tab]
    by_cases ha : t = a
    · subst ha
      by_cases hr : t ∈ rest <;> simp [hr, deactivate_map_idem, deactivate_comp, List.mem_cons]
    · by_cases hr : t ∈ rest <;> simp [hr, ha, List.mem_cons]

theorem mapGet_mapUpdate_self (f : UserTimers → UserTimers) (l : List (ChatID × UserTimers)) (c : ChatID) :
    mapGet (mapUpdate f l c) c = (mapGet l c).map f := by
  induction l with
  | nil => rfl
  | cons p rest ih =>
    obtain ⟨k, v⟩ := p
    unfold mapUpdate
    by_cases hk : k = c
    · rw [if_pos hk]
      unfold mapGet
      rw [if_pos hk, if_pos hk]
      rfl
    · rw [if_neg hk]
      unfold mapGet
      rw [if_neg hk, if_neg hk]
      exact ih

theorem mapGet_mapUpdate_ne (f : UserTimers → UserTimers) (l : List (ChatID × UserTimers)) (c c' : ChatID)
    (h : c' ≠ c) : mapGet (mapUpdate f l c) c' = mapGet l c' := by
  induction l with
  | nil => rfl
  | cons p rest ih =>
    obtain ⟨k, v⟩ := p
    unfold mapUpdate
    by_cases hk : k = c
    · rw [if_pos hk]
      subst hk
      unfold mapGet
      rw [if_neg (fun hcc => h hcc.symm), if_neg (fun hcc => h hcc.symm)]
      exact ih
    · rw [if_neg hk]
      unfold mapGet
      by_cases hk' : k = c'
      · rw [if_pos hk', if_pos hk']
      · rw [if_neg hk', if_neg hk']
        exact ih

theorem clearLT_nextId (st : SchedState) (c : ChatID) :
    (clearLectureTimers st c).nextId = st.nextId := by
  unfold clearLectureTimers
  cases h : mapGet st.timers c with
  | none => rfl
  | some ts => exact foldl_stopTimer_nextId _ _

theorem clearLT_sent (st : SchedState) (c : ChatID) :
    (clearLectureTimers st c).sent = st.sent := by
  unfold clearLectureTimers
  cases h : mapGet st.timers c with
  | none => rfl
  | some ts => exact foldl_stopTimer_sent _ _

theorem clearLT_tab (st : SchedState) (c : ChatID) (ts : UserTimers)
    (hts : mapGet st.timers c = some ts) (t : TimerId) :
    (clearLectureTimers st c).timerTab t =
      if t ∈ ts.lectureTimers then (st.timerTab t).map TimerInfo.deactivate
      else st.timerTab t := by
  unfold clearLectureTimers
  rw [hts]
  exact foldl_stopTimer_tab _ _ _

theorem clearLT_mapGet_self (st : SchedState) (c : ChatID) (ts : UserTimers)
    (hts : mapGet st.timers c = some ts) :
    mapGet (clearLectureTimers st c).timers c = some { ts with lectureTimers := [] } := by
  unfold clearLectureTimers
  rw [hts]
  dsimp only
  rw [mapGet_mapUpdate_self, foldl_stopTimer_timers, hts]
  rfl

theorem clearLT_active_mono (st : SchedState) (c : ChatID) (t : TimerId)
    (h : isActive (clearLectureTimers st c) t = true) : isActive st t = true := by
  unfold clearLectureTimers at h
  cases hm : mapGet st.timers c with
  | none => rw [hm] at h; exact h
  | some ts =>
    rw [hm] at h
    unfold isActive at h ⊢
    dsimp only at h
    rw [foldl_stopTimer_tab] at h
    by_cases hmem : t ∈ ts.lectureTimers
    · rw [if_pos hmem] at h
      cases hv : st.timerTab t with
      | none => rw [hv] at h; exact absurd h (by simp)
      | some i => rw [hv] at h; exact absurd h (by simp [TimerInfo.deactivate])
    · rw [if_neg hmem] at h
      exact h

/-- If every early-return condition line of `scheduleLectureReminders`
triggers, the function stops right after its cancellation step. -/
theorem SLR_fail (env : Env) (st : SchedState) (c : ChatID) (hfail : replanFails env c) :
    scheduleLectureReminders env st c = clearLectureTimers st c := by
  unfold scheduleLectureReminders
  unfold replanFails at hfail
  cases hu : env.getUser c with
  | none => rfl
  | some user =>
    rw [hu] at hfail
    dsimp only at hfail ⊢
    by_cases hurl : user.webCalURL = ""
    · rw [if_pos hurl]
    · rw [if_neg hurl]
      rcases hfail with hfail | hfail
      · exact absurd hfail hurl
      · cases hc : env.fetchCalendar user.webCalURL with
        | error e => rfl
        | ok cal =>
          rw [hc] at hfail
          dsimp only at hfail ⊢
          cases hl : env.getLectures cal env.today with
          | error e => rfl
          | ok lectures =>
            rw [hl] at hfail
            dsimp only at hfail ⊢
            rw [if_pos (by simp [hfail])]

/-! ## C4: a replan cancels stale reminders, then fails to a clean stop -/

/-- C4: `scheduleLectureReminders` first stops every previously armed
lecture-reminder timer of the user, and when the user record is
unreadable, no calendar link is configured, the fetch or the lecture
extraction fails, or zero lectures are returned, it stops there: the
user's recorded lecture-timer list is empty, no timer was created, and
no message (in particular no error) was sent. -/
theorem replan_failure_clears (env : Env) (st : SchedState) (c : ChatID) (ts : UserTimers)
    (hts : mapGet st.timers c = some ts) (hfail : replanFails env c) :
    (∀ tid ∈ ts.lectureTimers, isActive (scheduleLectureReminders env st c) tid = false) ∧
    mapGet (scheduleLectureReminders env st c).timers c = some { ts with lectureTimers := [] } ∧
    (scheduleLectureReminders env st c).nextId = st.nextId ∧
    (scheduleLectureReminders env st c).sent = st.sent := by
  rw [SLR_fail env st c hfail]
  refine ⟨?_, ?_, ?_, ?_⟩
  · intro tid h
    unfold isActive
    rw [clearLT_tab st c ts hts tid, if_pos h]
    cases st.timerTab tid <;> rfl
  · exact clearLT_mapGet_self st c ts hts
  · exact clearLT_nextId st c
  · exact clearLT_sent st c

/-- Witness for C4: in `stOne` with the no-calendar-link environment,
the armed lecture timer 2 is stopped, the recorded lecture-timer list
becomes empty, and no timer is created or message sent. -/
theorem replan_failure_clears_witness :
    isActive (scheduleLectureReminders envBase stOne 1) 2 = false ∧
    mapGet (scheduleLectureReminders envBase stOne 1).timers 1 =
      some { dailyTimer := some 0, weeklyTimer := some 1, lectureTimers := [], lectureScheduler := none } ∧
    (scheduleLectureReminders envBase stOne 1).nextId = 3 ∧
    (scheduleLectureReminders envBase stOne 1).sent = [] := by
  have h := replan_failure_clears envBase stOne 1
    { dailyTimer := some 0, weeklyTimer := some 1, lectureTimers := [2], lectureScheduler := none }
    (by decide) (Or.inl rfl)
  exact ⟨h.1 2 (by decide), h.2.1, h.2.2.1, h.2.2.2⟩

/-! ## C10: an unreadable user record behaves like a missing calendar -/

/-- C10: when the user record cannot be read (the lookup yields
nothing — the store returns a nil record exactly when it errors, and
the senders inspect only the record), both digest senders deliver the
"Please set your calendar link using /set_calendar" prompt rather than
an error message, and the lecture replan arms zero timers: it creates
none and activates none. -/
theorem missing_user_record_prompt (env : Env) (st : SchedState) (c : ChatID)
    (hu : env.getUser c = none) :
    sendDailyTimetable env st c = sendMessage st c "Please set your calendar link using /set_calendar" ∧
    sendWeeklyTimetable env st c = sendMessage st c "Please set your calendar link using /set_calendar" ∧
    (scheduleLectureReminders env st c).nextId = st.nextId ∧
    (∀ tid, isActive (scheduleLectureReminders env st c) tid = true → isActive st tid = true) := by
  have hfail : replanFails env c := by
    unfold replanFails
    rw [hu]
    trivial
  refine ⟨?_, ?_, ?_, ?_⟩
  · unfold sendDailyTimetable
    rw [hu]
  · unfold sendWeeklyTimetable
    rw [hu]
  · rw [SLR_fail env st c hfail]
    exact clearLT_nextId st c
  · intro tid h
    rw [SLR_fail env st c hfail] at h
    exact clearLT_active_mono st c tid h

/-- Witness for C10 at a concrete no-user environment and state. -/
theorem missing_user_record_prompt_witness :
    sendDailyTimetable envNoUser stOne 1 =
      sendMessage stOne 1 "Please set your calendar link using /set_calendar" ∧
    sendWeeklyTimetable envNoUser stOne 1 =
      sendMessage stOne 1 "Please set your calendar link using /set_calendar" ∧
    (scheduleLectureReminders envNoUser stOne 1).nextId = 3 := by
  have h := missing_user_record_prompt envNoUser stOne 1 rfl
  exact ⟨h.1, h.2.1, h.2.2.1⟩

/-! ## C3: only strictly-future reminders are armed -/

theorem addTimer_timers (st : SchedState) (i : TimerInfo) :
    (addTimer st i).timers = st.timers := rfl

theorem addTimer_sent (st : SchedState) (i : TimerInfo) :
    (addTimer st i).sent = st.sent := rfl

theorem addTimer_nextId (st : SchedState) (i : TimerInfo) :
    (addTimer st i).nextId = st.nextId + 1 := rfl

theorem addTimer_tab (st : SchedState) (i : TimerInfo) (t : TimerId) :
    (addTimer st i).timerTab t = if t = st.nextId then some i else st.timerTab t := rfl

theorem armLecture_pos (env : Env) (c : ChatID) (off : Int) (acc : List TimerId × SchedState)
    (l : Lecture) (hf : env.now < l.start - off) :
    armLecture env c off acc l = (acc.1 ++ [acc.2.nextId], addTimer acc.2 (lectureInfo env c off l)) := by
  unfold armLecture lectureInfo
  rw [if_pos hf]

theorem armLecture_neg (env : Env) (c : ChatID) (off : Int) (acc : List TimerId × SchedState)
    (l : Lecture) (hf : ¬ env.now < l.start - off) :
    armLecture env c off acc l = acc := by
  unfold armLecture
  rw [if_neg hf]

/-- Full characterisation of the arming loop (lines 119-137): it
appends one fresh armed timer per lecture whose reminder moment is
strictly in the future, in order, and creates nothing else. -/
theorem armLoop_spec (env : Env) (c : ChatID) (off : Int) (ls : List Lecture) :
    ∀ acc : List TimerId × SchedState,
    (ls.foldl (armLecture env c off) acc).1 =
      acc.1 ++ List.range' acc.2.nextId (ls.filter (futureP env off)).length ∧
    (ls.foldl (armLecture env c off) acc).2.nextId =
      acc.2.nextId + (ls.filter (futureP env off)).length ∧
    (ls.foldl (armLecture env c off) acc).2.timers = acc.2.timers ∧
    (ls.foldl (armLecture env c off) acc).2.sent = acc.2.sent ∧
    (∀ t, t < acc.2.nextId →
      (ls.foldl (armLecture env c off) acc).2.timerTab t = acc.2.timerTab t) ∧
    (List.range' acc.2.nextId (ls.filter (futureP env off)).length).map
        (ls.foldl (armLecture env c off) acc).2.timerTab =
      (ls.filter (futureP env off)).map (fun l => some (lectureInfo env c off l)) ∧
    (∀ t info, (ls.foldl (armLecture env c off) acc).2.timerTab t = some info →
      acc.2.timerTab t = some info ∨ info.kind = TimerKind.lecture) := by
  induction ls with
  | nil =>
    intro acc
    refine ⟨by simp, by simp, rfl, rfl, fun t _ => rfl, by simp, fun t info h => Or.inl h⟩
  | cons l rest ih =>
    intro acc
    by_cases hf : env.now < l.start - off
    · have hpt : futureP env off l = true := decide_eq_true hf
      rw [List.foldl_cons, armLecture_pos env c off acc l hf,
        List.filter_cons_of_pos hpt, List.length_cons]
      obtain ⟨h1, h2, h3, h4, h5, h6, h7⟩ :=
        ih (acc.1 ++ [acc.2.nextId], addTimer acc.2 (lectureInfo env c off l))
      dsimp only at h1 h2 h3 h4 h5 h6 h7
      rw [addTimer_nextId] at h1 h2 h5 h6
      rw [addTimer_timers] at h3
      rw [addTimer_sent] at h4
      refine ⟨?_, ?_, h3, h4, ?_, ?_, ?_⟩
      · rw [h1, List.range'_succ]
        simp
      · rw [h2, Nat.add_assoc, Nat.add_comm 1]
      · intro t ht
        rw [h5 t (Nat.lt_succ_of_lt ht), addTimer_tab, if_neg (Nat.ne_of_lt ht)]
      · simp only [List.range'_succ, List.map_cons]
        congr 1
        rw [h5 acc.2.nextId (Nat.lt_succ_self _), addTimer_tab, if_pos rfl]
      · intro t info hinfo
        rcases h7 t info hinfo with h' | h'
        · rw [addTimer_tab] at h'
          by_cases hn : t = acc.2.nextId
          · rw [if_pos hn] at h'
            right
            injection h' with h''
            rw [← h'']
            rfl
          · rw [if_neg hn] at h'
            exact Or.inl h'
        · exact Or.inr h'
    · have hpf : futureP env off l = false := decide_eq_false hf
      rw [List.foldl_cons, armLecture_neg env c off acc l hf,
        List.filter_cons_of_neg (by simp [hpf])]
      exact ih acc

/-- When every precondition holds, `scheduleLectureReminders` reaches
its arming loop: first the cancellation step, then the loop, then the
recording of the fresh timer list. -/
theorem SLR_success (env : Env) (st : SchedState) (c : ChatID)
    (user : User) (cal : Nat) (lectures : List Lecture)
    (hu : env.getUser c = some user)
    (hurl : user.webCalURL ≠ "")
    (hcal : env.fetchCalendar user.webCalURL = Except.ok cal)
    (hlec : env.getLectures cal env.today = Except.ok lectures)
    (hne : lectures ≠ []) :
    scheduleLectureReminders env st c =
      (let res := lectures.foldl (armLecture env c (user.reminderOffset.getD 15))
        ([], clearLectureTimers st c)
       { res.2 with
         timers := mapUpdate (fun t => { t with lectureTimers := res.1 }) res.2.timers c }) := by
  unfold scheduleLectureReminders
  rw [hu]
  dsimp only
  rw [if_neg hurl, hcal]
  dsimp only
  rw [hlec]
  dsimp only
  rw [if_neg (by simpa using hne)]

/-- C3: when a replan reaches the arming loop (readable user with a
calendar link, successful fetch and lecture extraction, at least one
lecture), the user's recorded lecture-timer list consists of exactly
one fresh timer per lecture whose `start - leadTime` is strictly after
`now` (in order, armed, firing at `start - leadTime`, carrying that
lecture's reminder text), and no other timer is created — in
particular none for a lecture whose reminder moment is at or before
`now`. -/
theorem replan_arms_exactly_future (env : Env) (st : SchedState) (c : ChatID)
    (ts : UserTimers) (user : User) (cal : Nat) (lectures : List Lecture)
    (off : Int) (k : Nat)
    (hts : mapGet st.timers c = some ts)
    (hu : env.getUser c = some user)
    (hurl : user.webCalURL ≠ "")
    (hcal : env.fetchCalendar user.webCalURL = Except.ok cal)
    (hlec : env.getLectures cal env.today = Except.ok lectures)
    (hne : lectures ≠ [])
    (hoff : off = user.reminderOffset.getD 15)
    (hk : k = (lectures.filter (futureP env off)).length) :
    mapGet (scheduleLectureReminders env st c).timers c =
      some { ts with lectureTimers := List.range' st.nextId k } ∧
    (scheduleLectureReminders env st c).nextId = st.nextId + k ∧
    (List.range' st.nextId k).map (scheduleLectureReminders env st c).timerTab =
      (lectures.filter (futureP env off)).map (fun l => some (lectureInfo env c off l)) := by
  subst hoff
  subst hk
  rw [SLR_success env st c user cal lectures hu hurl hcal hlec hne]
  dsimp only
  obtain ⟨h1, h2, h3, h4, h5, h6, h7⟩ :=
    armLoop_spec env c (user.reminderOffset.getD 15) lectures ([], clearLectureTimers st c)
  dsimp only at h1 h2 h3 h4 h5 h6
  simp only [List.nil_append] at h1
  refine ⟨?_, ?_, ?_⟩
  · rw [mapGet_mapUpdate_self, h3, clearLT_mapGet_self st c ts hts, Option.map_some']
    dsimp only
    rw [h1, clearLT_nextId]
  · rw [h2, clearLT_nextId]
  · rw [show st.nextId = (clearLectureTimers st c).nextId from (clearLT_nextId st c).symm]
    exact h6

/-- Witness for C3: lectures at 10:45 and 14:00 (minutes 645 and 840),
a 15-minute lead and a replan at 10:30 (minute 630): the 10:45
reminder moment (10:30) is not strictly in the future and is skipped;
exactly one timer is created, armed for the 14:00 lecture. -/
theorem replan_arms_exactly_future_witness :
    mapGet (scheduleLectureReminders envLectures stOne 1).timers 1 =
      some { dailyTimer := some 0, weeklyTimer := some 1, lectureTimers := [3], lectureScheduler := none } ∧
    (scheduleLectureReminders envLectures stOne 1).nextId = 4 ∧
    (scheduleLectureReminders envLectures stOne 1).timerTab 3 =
      some (lectureInfo envLectures 1 15 lecFuture) := by
  have h := replan_arms_exactly_future envLectures stOne 1
    { dailyTimer := some 0, weeklyTimer := some 1, lectureTimers := [2], lectureScheduler := none }
    userCal 0 [lecBoundary, lecFuture] 15 1
    (by decide) rfl (by decide) rfl rfl (by simp) rfl (by decide)
  refine ⟨h.1.trans (by decide), h.2.1, ?_⟩
  have h3 := h.2.2
  rw [show List.range' stOne.nextId 1 = [3] by decide,
    show [lecBoundary, lecFuture].filter (futureP envLectures 15) = [lecFuture] by decide] at h3
  simpa using h3

/-! ## C7: StopAll empties the mapping and disarms every timer -/

theorem stopOpt_eq_foldl (st : SchedState) (o : Option TimerId) :
    stopOpt st o = o.toList.foldl stopTimer st := by
  cases o <;> rfl

theorem CancelUser_tab (st : SchedState) (c : ChatID) (ts : UserTimers)
    (hts : mapGet st.timers c = some ts) (t : TimerId) :
    (CancelUser st c).timerTab t =
      if t ∈ ts.refs then (st.timerTab t).map TimerInfo.deactivate else st.timerTab t := by
  unfold CancelUser
  rw [hts]
  dsimp only
  rw [stopOpt_eq_foldl, stopOpt_eq_foldl, stopOpt_eq_foldl,
    ← List.foldl_append, ← List.foldl_append, ← List.foldl_append]
  exact foldl_stopTimer_tab _ _ _

theorem CancelUser_deactivates (st : SchedState) (c : ChatID) (ts : UserTimers)
    (hts : mapGet st.timers c = some ts) (t : TimerId) (href : t ∈ ts.refs) :
    isActive (CancelUser st c) t = false := by
  unfold isActive
  rw [CancelUser_tab st c ts hts t, if_pos href]
  cases st.timerTab t <;> rfl

theorem CancelUser_active_mono (st : SchedState) (c : ChatID) (t : TimerId)
    (h : isActive (CancelUser st c) t = true) : isActive st t = true := by
  cases hm : mapGet st.timers c with
  | none => rw [CancelUser_absent st c hm] at h; exact h
  | some ts =>
    unfold isActive at h ⊢
    rw [CancelUser_tab st c ts hm t] at h
    by_cases href : t ∈ ts.refs
    · rw [if_pos href] at h
      cases hv : st.timerTab t with
      | none => rw [hv] at h; exact absurd h (by simp)
      | some i => rw [hv] at h; exact absurd h (by simp [TimerInfo.deactivate])
    · rw [if_neg href] at h
      exact h

theorem foldl_cancel_active_mono (ks : List ChatID) (st : SchedState) (t : TimerId)
    (h : isActive (ks.foldl CancelUser st) t = true) : isActive st t = true := by
  induction ks generalizing st with
  | nil => exact h
  | cons k rest ih =>
    rw [List.foldl_cons] at h
    exact CancelUser_active_mono st k t (ih (CancelUser st k) h)

theorem mapGet_cons (k : ChatID) (v : UserTimers) (rest : List (ChatID × UserTimers)) (c : ChatID) :
    mapGet ((k, v) :: rest) c = if k = c then some v else mapGet rest c := rfl

theorem mapDelete_cons (k : ChatID) (v : UserTimers) (rest : List (ChatID × UserTimers)) (c : ChatID) :
    mapDelete ((k, v) :: rest) c =
      if k = c then mapDelete rest c else (k, v) :: mapDelete rest c := rfl

theorem mapGet_mapDelete_ne (l : List (ChatID × UserTimers)) (c c' : ChatID)
    (h : c' ≠ c) : mapGet (mapDelete l c) c' = mapGet l c' := by
  induction l with
  | nil => rfl
  | cons p rest ih =>
    obtain ⟨k, v⟩ := p
    rw [mapDelete_cons]
    by_cases hk : k = c
    · rw [if_pos hk, ih, mapGet_cons, if_neg (fun e => h (hk.symm.trans e).symm)]
    · rw [if_neg hk, mapGet_cons, mapGet_cons]
      by_cases hk' : k = c'
      · rw [if_pos hk', if_pos hk']
      · rw [if_neg hk', if_neg hk', ih]

theorem CancelUser_mapGet_ne (st : SchedState) (c c' : ChatID) (h : c' ≠ c) :
    mapGet (CancelUser st c).timers c' = mapGet st.timers c' := by
  rw [CancelUser_timers, mapGet_mapDelete_ne st.timers c c' h]

theorem foldl_cancel_kills (ks : List ChatID) (st : SchedState) (c : ChatID)
    (ts : UserTimers) (t : TimerId) (hc : c ∈ ks) (hts : mapGet st.timers c = some ts)
    (href : t ∈ ts.refs) : isActive (ks.foldl CancelUser st) t = false := by
  induction ks generalizing st with
  | nil => exact absurd hc (List.not_mem_nil c)
  | cons k rest ih =>
    rw [List.foldl_cons]
    by_cases hck : c = k
    · subst hck
      have hdead := CancelUser_deactivates st c ts hts t href
      cases hb : isActive (rest.foldl CancelUser (CancelUser st c)) t with
      | false => rfl
      | true =>
        have hmono := foldl_cancel_active_mono rest (CancelUser st c) t hb
        rw [hdead] at hmono
        exact absurd hmono (by simp)
    · have hc' : c ∈ rest := by
        cases List.mem_cons.mp hc with
        | inl h => exact absurd h hck
        | inr h => exact h
      exact ih (CancelUser st k) hc' ((CancelUser_mapGet_ne st k c hck).trans hts)

theorem mem_mapDelete (l : List (ChatID × UserTimers)) (c : ChatID)
    (p : ChatID × UserTimers) (hp : p ∈ mapDelete l c) : p ∈ l ∧ p.1 ≠ c := by
  induction l with
  | nil => exact absurd hp (List.not_mem_nil p)
  | cons q rest ih =>
    obtain ⟨k, v⟩ := q
    unfold mapDelete at hp
    by_cases hk : k = c
    · rw [if_pos hk] at hp
      obtain ⟨hmem, hne⟩ := ih hp
      exact ⟨List.mem_cons_of_mem _ hmem, hne⟩
    · rw [if_neg hk] at hp
      cases List.mem_cons.mp hp with
      | inl h => exact ⟨h ▸ List.mem_cons_self _ _, by rw [h]; exact hk⟩
      | inr h =>
        obtain ⟨hmem, hne⟩ := ih h
        exact ⟨List.mem_cons_of_mem _ hmem, hne⟩

theorem foldl_cancel_empties (ks : List ChatID) (st : SchedState)
    (h : ∀ p ∈ st.timers, p.1 ∈ ks) : (ks.foldl CancelUser st).timers = [] := by
  induction ks generalizing st with
  | nil =>
    cases hl : st.timers with
    | nil => exact hl
    | cons p rest =>
      have := h p (by rw [hl]; exact List.mem_cons_self _ _)
      exact absurd this (List.not_mem_nil _)
  | cons k rest ih =>
    rw [List.foldl_cons]
    apply ih
    intro p hp
    rw [CancelUser_timers] at hp
    obtain ⟨hmem, hne⟩ := mem_mapDelete st.timers k p hp
    cases List.mem_cons.mp (h p hmem) with
    | inl h' => exact absurd h' hne
    | inr h' => exact h'

theorem mapGet_mem_keys (l : List (ChatID × UserTimers)) (c : ChatID)
    (v : UserTimers) (h : mapGet l c = some v) : c ∈ l.map Prod.fst := by
  induction l with
  | nil => exact absurd h (by simp [mapGet])
  | cons p rest ih =>
    obtain ⟨k, w⟩ := p
    unfold mapGet at h
    by_cases hk : k = c
    · rw [List.map_cons]
      exact hk ▸ List.mem_cons_self _ _
    · rw [if_neg hk] at h
      exact List.mem_cons_of_mem _ (ih h)

theorem fireTimer_inactive (env : Env) (st : SchedState) (tid : TimerId)
    (h : isActive st tid = false) : fireTimer env st tid = st := by
  unfold fireTimer
  unfold isActive at h
  cases hv : st.timerTab tid with
  | none => rfl
  | some info =>
    rw [hv] at h
    dsimp only at h ⊢
    rw [h]
    simp

/-- C7: after `StopAll` the identity-to-timer-set mapping is empty, and
every timer handle recorded in any user's timer set has been stopped,
so firing it afterwards is a complete no-op — in particular it delivers
no message. -/
theorem stopAll_cancels_everything (env : Env) (st : SchedState) :
    (StopAll st).timers = [] ∧
    ∀ c ts, mapGet st.timers c = some ts → ∀ tid ∈ ts.refs,
      isActive (StopAll st) tid = false ∧ fireTimer env (StopAll st) tid = StopAll st := by
  constructor
  · exact foldl_cancel_empties (st.timers.map Prod.fst) st
      (fun p hp => List.mem_map_of_mem Prod.fst hp)
  · intro c ts hts tid href
    have hdead := foldl_cancel_kills (st.timers.map Prod.fst) st c ts tid
      (mapGet_mem_keys st.timers c ts hts) hts href
    exact ⟨hdead, fireTimer_inactive env _ tid hdead⟩

/-- Witness for C7: in `stOne`, chat 1's set holds armed timers 0, 1
and 2; after `StopAll` the mapping is empty, timer 0 is disarmed and
firing it changes nothing. -/
theorem stopAll_cancels_everything_witness :
    (StopAll stOne).timers = [] ∧ isActive (StopAll stOne) 0 = false ∧
    fireTimer envBase (StopAll stOne) 0 = StopAll stOne := by
  have h := stopAll_cancels_everything envBase stOne
  have h2 := h.2 1
    { dailyTimer := some 0, weeklyTimer := some 1, lectureTimers := [2], lectureScheduler := none }
    (by decide) 0 (by decide)
  exact ⟨h.1, h2.1, h2.2⟩

/-! ## C1: ScheduleUser arms exactly one daily and one weekly timer -/

theorem mapSet_cons (k : ChatID) (v : UserTimers) (rest : List (ChatID × UserTimers))
    (c : ChatID) (w : UserTimers) :
    mapSet ((k, v) :: rest) c w = if k = c then (c, w) :: rest else (k, v) :: mapSet rest c w := rfl

theorem mapUpdate_cons (f : UserTimers → UserTimers) (k : ChatID) (v : UserTimers)
    (rest : List (ChatID × UserTimers)) (c : ChatID) :
    mapUpdate f ((k, v) :: rest) c =
      if k = c then (k, f v) :: mapUpdate f rest c else (k, v) :: mapUpdate f rest c := rfl

theorem mapGet_mapSet_self (l : List (ChatID × UserTimers)) (c : ChatID) (v : UserTimers) :
    mapGet (mapSet l c v) c = some v := by
  induction l with
  | nil => simp [mapSet, mapGet]
  | cons p rest ih =>
    obtain ⟨k, w⟩ := p
    rw [mapSet_cons]
    by_cases hk : k = c
    · rw [if_pos hk, mapGet_cons, if_pos rfl]
    · rw [if_neg hk, mapGet_cons, if_neg hk]
      exact ih

theorem mapUpdate_keys (f : UserTimers → UserTimers) (l : List (ChatID × UserTimers)) (c : ChatID) :
    (mapUpdate f l c).map Prod.fst = l.map Prod.fst := by
  induction l with
  | nil => rfl
  | cons p rest ih =>
    obtain ⟨k, v⟩ := p
    rw [mapUpdate_cons]
    by_cases hk : k = c
    · rw [if_pos hk, List.map_cons, List.map_cons, ih]
    · rw [if_neg hk, List.map_cons, List.map_cons, ih]

theorem keyCount_cons (k : ChatID) (v : UserTimers) (rest : List (ChatID × UserTimers))
    (c : ChatID) : keyCount ((k, v) :: rest) c = (if k = c then 1 else 0) + keyCount rest c := rfl

theorem keyCount_mapDelete (l : List (ChatID × UserTimers)) (c : ChatID) :
    keyCount (mapDelete l c) c = 0 := by
  induction l with
  | nil => rfl
  | cons p rest ih =>
    obtain ⟨k, v⟩ := p
    rw [mapDelete_cons]
    by_cases hk : k = c
    · rw [if_pos hk]
      exact ih
    · rw [if_neg hk, keyCount_cons, if_neg hk, ih]

theorem keyCount_mapSet_zero (l : List (ChatID × UserTimers)) (c : ChatID) (v : UserTimers)
    (h : keyCount l c = 0) : keyCount (mapSet l c v) c = 1 := by
  induction l with
  | nil => simp [mapSet, keyCount]
  | cons p rest ih =>
    obtain ⟨k, w⟩ := p
    rw [keyCount_cons] at h
    rw [mapSet_cons]
    by_cases hk : k = c
    · exfalso
      rw [if_pos hk] at h
      exact absurd h (by simp)
    · rw [if_neg hk] at h
      rw [if_neg hk, keyCount_cons, if_neg hk, ih (by simpa using h)]

theorem keyCount_of_keys_eq : ∀ (l1 l2 : List (ChatID × UserTimers)) (c : ChatID),
    l1.map Prod.fst = l2.map Prod.fst → keyCount l1 c = keyCount l2 c
  | [], l2, c, h => by
    cases l2 with
    | nil => rfl
    | cons q r => simp at h
  | (k, v) :: r1, l2, c, h => by
    cases l2 with
    | nil => simp at h
    | cons q r2 =>
      obtain ⟨k2, v2⟩ := q
      simp only [List.map_cons, List.cons.injEq] at h
      rw [keyCount_cons, keyCount_cons, h.1, keyCount_of_keys_eq r1 r2 c h.2]

theorem activeKind_addTimer (st : SchedState) (i : TimerInfo) (k : TimerKind)
    (c : ChatID) (t : TimerId) :
    activeKind (addTimer st i) k c t =
      if t = st.nextId then i.active && i.kind == k && i.chatID == c
      else activeKind st k c t := by
  unfold activeKind
  rw [addTimer_tab]
  by_cases h : t = st.nextId
  · rw [if_pos h, if_pos h]
  · rw [if_neg h, if_neg h]

/-- Under the ownership invariant, `CancelUser` leaves no armed timer
of any kind belonging to the cancelled identity. -/
theorem CancelUser_kills_chat (st : SchedState) (c : ChatID) (hOwn : OwnedAt st c)
    (k : TimerKind) (t : TimerId) : activeKind (CancelUser st c) k c t = false := by
  unfold activeKind
  cases hv : (CancelUser st c).timerTab t with
  | none => rfl
  | some info =>
    dsimp only
    by_cases hchat : info.chatID = c
    · have hdead : info.active = false := by
        cases hb : info.active with
        | false => rfl
        | true =>
          exfalso
          cases hm : mapGet st.timers c with
          | none =>
            rw [CancelUser_absent st c hm] at hv
            obtain ⟨ts, hts, _⟩ := hOwn t info hv hb hchat
            rw [hm] at hts
            exact absurd hts (by simp)
          | some ts =>
            rw [CancelUser_tab st c ts hm t] at hv
            by_cases href : t ∈ ts.refs
            · rw [if_pos href] at hv
              cases hv' : st.timerTab t with
              | none => rw [hv'] at hv; simp at hv
              | some i0 =>
                rw [hv'] at hv
                simp only [Option.map_some'] at hv
                injection hv with hvi
                rw [← hvi] at hb
                simp [TimerInfo.deactivate] at hb
            · rw [if_neg href] at hv
              obtain ⟨ts', hts', hrefk⟩ := hOwn t info hv hb hchat
              rw [hm] at hts'
              injection hts' with he
              subst he
              apply href
              cases hkind : info.kind <;>
                (rw [hkind] at hrefk; dsimp only at hrefk; simp [UserTimers.refs, hrefk])
      simp [hdead]
    · simp [hchat]

theorem replanFails_or_success (env : Env) (c : ChatID) :
    replanFails env c ∨ ∃ user cal lectures, env.getUser c = some user ∧
      ¬ user.webCalURL = "" ∧ env.fetchCalendar user.webCalURL = Except.ok cal ∧
      env.getLectures cal env.today = Except.ok lectures ∧ lectures ≠ [] := by
  unfold replanFails
  cases hu : env.getUser c with
  | none => exact Or.inl trivial
  | some user =>
    dsimp only
    by_cases hurl : user.webCalURL = ""
    · exact Or.inl (Or.inl hurl)
    · cases hc : env.fetchCalendar user.webCalURL with
      | error e =>
        refine Or.inl (Or.inr ?_)
        trivial
      | ok cal =>
        cases hl : env.getLectures cal env.today with
        | error e =>
          refine Or.inl (Or.inr ?_)
          dsimp only
          rw [hl]
          trivial
        | ok lectures =>
          by_cases hne : lectures = []
          · refine Or.inl (Or.inr ?_)
            dsimp only
            rw [hl]
            exact hne
          · exact Or.inr ⟨user, cal, lectures, rfl, hurl, hc, hl, hne⟩

theorem clearLT_of_empty (st : SchedState) (c : ChatID) (ts : UserTimers)
    (hts : mapGet st.timers c = some ts) (hempty : ts.lectureTimers = []) :
    (clearLectureTimers st c).timerTab = st.timerTab ∧
    (clearLectureTimers st c).nextId = st.nextId ∧
    (clearLectureTimers st c).timers.map Prod.fst = st.timers.map Prod.fst ∧
    mapGet (clearLectureTimers st c).timers c = some ts := by
  refine ⟨funext fun t => ?_, clearLT_nextId st c, ?_, ?_⟩
  · rw [clearLT_tab st c ts hts t, hempty]
    simp
  · unfold clearLectureTimers
    rw [hts]
    dsimp only
    rw [mapUpdate_keys, foldl_stopTimer_timers]
  · rw [clearLT_mapGet_self st c ts hts, ← hempty]

/-- Effect of a lecture replan on a state whose entry for `c` holds no
lecture timers (the situation inside `ScheduleUser`, which has just
installed a fresh set): the timer table below `nextId` is untouched,
every timer it creates is of lecture kind, the key list is unchanged
and the entry keeps its daily/weekly/replanner slots. -/
theorem SLR_empty_effect (env : Env) (st : SchedState) (c : ChatID) (ts : UserTimers)
    (hts : mapGet st.timers c = some ts) (hempty : ts.lectureTimers = []) :
    (∀ t, t < st.nextId → (scheduleLectureReminders env st c).timerTab t = st.timerTab t) ∧
    (∀ t info, (scheduleLectureReminders env st c).timerTab t = some info →
      st.timerTab t = some info ∨ info.kind = TimerKind.lecture) ∧
    (scheduleLectureReminders env st c).timers.map Prod.fst = st.timers.map Prod.fst ∧
    (∃ L, mapGet (scheduleLectureReminders env st c).timers c =
      some { ts with lectureTimers := L }) := by
  obtain ⟨htab, hnext, hkeys, hget⟩ := clearLT_of_empty st c ts hts hempty
  rcases replanFails_or_success env c with hfail | ⟨user, cal, lectures, hu, hurl, hc, hl, hne⟩
  · rw [SLR_fail env st c hfail]
    refine ⟨fun t _ => congrFun htab t,
      fun t info h => Or.inl ((congrFun htab t).symm.trans h),
      hkeys, ⟨ts.lectureTimers, ?_⟩⟩
    exact hget
  · rw [SLR_success env st c user cal lectures hu hurl hc hl hne]
    dsimp only
    obtain ⟨h1, h2, h3, h4, h5, h6, h7⟩ :=
      armLoop_spec env c (user.reminderOffset.getD 15) lectures ([], clearLectureTimers st c)
    dsimp only at h1 h2 h3 h4 h5 h6 h7
    refine ⟨?_, ?_, ?_, ?_⟩
    · intro t ht
      rw [h5 t (by rw [hnext]; exact ht)]
      exact congrFun htab t
    · intro t info h
      rcases h7 t info h with h' | h'
      · exact Or.inl ((congrFun htab t).symm.trans h')
      · exact Or.inr h'
    · rw [mapUpdate_keys, h3, hkeys]
    · refine ⟨(lectures.foldl (armLecture env c (user.reminderOffset.getD 15))
        ([], clearLectureTimers st c)).1, ?_⟩
      rw [mapGet_mapUpdate_self, h3, hget]
      rfl

theorem installEmpty_timers (st : SchedState) (c : ChatID) :
    (installEmpty st c).timers = mapSet st.timers c UserTimers.empty := rfl

theorem installEmpty_tab (st : SchedState) (c : ChatID) :
    (installEmpty st c).timerTab = st.timerTab := rfl

theorem installEmpty_nextId (st : SchedState) (c : ChatID) :
    (installEmpty st c).nextId = st.nextId := rfl

theorem installEmpty_mapGet (st : SchedState) (c : ChatID) :
    mapGet (installEmpty st c).timers c = some UserTimers.empty :=
  mapGet_mapSet_self st.timers c UserTimers.empty

theorem armDaily_tab (env : Env) (st : SchedState) (c : ChatID) (user : User) (t : TimerId) :
    (armDaily env st c user).timerTab t =
      if t = st.nextId then some (dailyInfo env c user) else st.timerTab t := by
  unfold armDaily
  exact addTimer_tab st (dailyInfo env c user) t

theorem armDaily_nextId (env : Env) (st : SchedState) (c : ChatID) (user : User) :
    (armDaily env st c user).nextId = st.nextId + 1 := rfl

theorem armDaily_keys (env : Env) (st : SchedState) (c : ChatID) (user : User) :
    (armDaily env st c user).timers.map Prod.fst = st.timers.map Prod.fst := by
  unfold armDaily
  dsimp only
  rw [mapUpdate_keys, addTimer_timers]

theorem armDaily_mapGet (env : Env) (st : SchedState) (c : ChatID) (user : User) :
    mapGet (armDaily env st c user).timers c =
      (mapGet st.timers c).map (fun ts => { ts with dailyTimer := some st.nextId }) := by
  unfold armDaily
  dsimp only
  rw [mapGet_mapUpdate_self, addTimer_timers]

theorem armWeekly_tab (env : Env) (st : SchedState) (c : ChatID) (user : User) (t : TimerId) :
    (armWeekly env st c user).timerTab t =
      if t = st.nextId then some (weeklyInfo env c user) else st.timerTab t := by
  unfold armWeekly
  exact addTimer_tab st (weeklyInfo env c user) t

theorem armWeekly_nextId (env : Env) (st : SchedState) (c : ChatID) (user : User) :
    (armWeekly env st c user).nextId = st.nextId + 1 := rfl

theorem armWeekly_keys (env : Env) (st : SchedState) (c : ChatID) (user : User) :
    (armWeekly env st c user).timers.map Prod.fst = st.timers.map Prod.fst := by
  unfold armWeekly
  dsimp only
  rw [mapUpdate_keys, addTimer_timers]

theorem armWeekly_mapGet (env : Env) (st : SchedState) (c : ChatID) (user : User) :
    mapGet (armWeekly env st c user).timers c =
      (mapGet st.timers c).map (fun ts => { ts with weeklyTimer := some st.nextId }) := by
  unfold armWeekly
  dsimp only
  rw [mapGet_mapUpdate_self, addTimer_timers]

theorem armMidnight_tab (env : Env) (st : SchedState) (c : ChatID) (t : TimerId) :
    (armMidnight env st c).timerTab t =
      if t = st.nextId then some (midnightInfo env c) else st.timerTab t := by
  unfold armMidnight
  exact addTimer_tab st (midnightInfo env c) t

theorem armMidnight_nextId (env : Env) (st : SchedState) (c : ChatID) :
    (armMidnight env st c).nextId = st.nextId + 1 := rfl

theorem armMidnight_keys (env : Env) (st : SchedState) (c : ChatID) :
    (armMidnight env st c).timers.map Prod.fst = st.timers.map Prod.fst := by
  unfold armMidnight
  dsimp only
  rw [mapUpdate_keys, addTimer_timers]

theorem armMidnight_mapGet (env : Env) (st : SchedState) (c : ChatID) :
    mapGet (armMidnight env st c).timers c =
      (mapGet st.timers c).map (fun ts => { ts with lectureScheduler := some st.nextId }) := by
  unfold armMidnight
  dsimp only
  rw [mapGet_mapUpdate_self, addTimer_timers]

/-- Effect of `scheduleLectureRemindersAtMidnight` on a state whose
entry for `c` holds no lecture timers: below-`nextId` table entries are
untouched, every created timer is a lecture reminder or the replanner,
keys are unchanged, and the entry keeps its daily and weekly slots. -/
theorem SLRAM_effect (env : Env) (st : SchedState) (c : ChatID) (ts : UserTimers)
    (hts : mapGet st.timers c = some ts) (hempty : ts.lectureTimers = []) :
    (∀ t, t < st.nextId → (scheduleLectureRemindersAtMidnight env st c).timerTab t = st.timerTab t) ∧
    (∀ t info, (scheduleLectureRemindersAtMidnight env st c).timerTab t = some info →
      st.timerTab t = some info ∨ info.kind = TimerKind.lecture ∨
        info.kind = TimerKind.lectureScheduler) ∧
    (scheduleLectureRemindersAtMidnight env st c).timers.map Prod.fst = st.timers.map Prod.fst ∧
    (∃ L ms, mapGet (scheduleLectureRemindersAtMidnight env st c).timers c =
      some { ts with lectureTimers := L, lectureScheduler := ms }) := by
  unfold scheduleLectureRemindersAtMidnight
  have hget7 : mapGet (armMidnight env st c).timers c =
      some { ts with lectureScheduler := some st.nextId } := by
    rw [armMidnight_mapGet, hts]
    rfl
  obtain ⟨E1, E2, E3, E4⟩ := SLR_empty_effect env (armMidnight env st c) c
    { ts with lectureScheduler := some st.nextId } hget7 hempty
  refine ⟨?_, ?_, ?_, ?_⟩
  · intro t ht
    rw [E1 t (by rw [armMidnight_nextId]; exact Nat.lt_succ_of_lt ht),
      armMidnight_tab, if_neg (Nat.ne_of_lt ht)]
  · intro t info h
    rcases E2 t info h with h' | h'
    · rw [armMidnight_tab] at h'
      by_cases hn : t = st.nextId
      · rw [if_pos hn] at h'
        injection h' with he
        refine Or.inr (Or.inr ?_)
        rw [← he]
        rfl
      · rw [if_neg hn] at h'
        exact Or.inl h'
    · exact Or.inr (Or.inl h')
  · rw [E3, armMidnight_keys]
  · obtain ⟨L, hL⟩ := E4
    exact ⟨L, some st.nextId, hL⟩

/-- After the install-arm-arm-replan pipeline runs on a state `stc` in
which no timer of the target identity is armed, the identity's entry
holds exactly one armed daily timer and one armed weekly timer. -/
theorem pipeline_one_daily_one_weekly (env : Env) (stc : SchedState) (c : ChatID) (user : User)
    (hkill : ∀ k t, activeKind stc k c t = false) :
    ∃ ts', mapGet (scheduleLectureRemindersAtMidnight env
        (armWeekly env (armDaily env (installEmpty stc c) c user) c user) c).timers c = some ts' ∧
      ts'.dailyTimer = some stc.nextId ∧ ts'.weeklyTimer = some (stc.nextId + 1) ∧
      activeKind (scheduleLectureRemindersAtMidnight env
        (armWeekly env (armDaily env (installEmpty stc c) c user) c user) c)
        TimerKind.daily c stc.nextId = true ∧
      activeKind (scheduleLectureRemindersAtMidnight env
        (armWeekly env (armDaily env (installEmpty stc c) c user) c user) c)
        TimerKind.weekly c (stc.nextId + 1) = true ∧
      (∀ t, activeKind (scheduleLectureRemindersAtMidnight env
        (armWeekly env (armDaily env (installEmpty stc c) c user) c user) c)
        TimerKind.daily c t = true → t = stc.nextId) ∧
      (∀ t, activeKind (scheduleLectureRemindersAtMidnight env
        (armWeekly env (armDaily env (installEmpty stc c) c user) c user) c)
        TimerKind.weekly c t = true → t = stc.nextId + 1) := by
  have hgetW : mapGet (armWeekly env (armDaily env (installEmpty stc c) c user) c user).timers c =
      some { dailyTimer := some stc.nextId, weeklyTimer := some (stc.nextId + 1),
             lectureTimers := [], lectureScheduler := none } := by
    rw [armWeekly_mapGet, armDaily_mapGet, installEmpty_mapGet]
    rfl
  obtain ⟨E1, E2, E3, E4⟩ := SLRAM_effect env
    (armWeekly env (armDaily env (installEmpty stc c) c user) c user) c
    { dailyTimer := some stc.nextId, weeklyTimer := some (stc.nextId + 1),
      lectureTimers := [], lectureScheduler := none } hgetW rfl
  obtain ⟨L, ms, hENT⟩ := E4
  have hWnext : (armWeekly env (armDaily env (installEmpty stc c) c user) c user).nextId =
      stc.nextId + 1 + 1 := rfl
  have htabD : (scheduleLectureRemindersAtMidnight env
      (armWeekly env (armDaily env (installEmpty stc c) c user) c user) c).timerTab stc.nextId =
      some (dailyInfo env c user) := by
    rw [E1 stc.nextId (by rw [hWnext]; exact Nat.lt_succ_of_lt (Nat.lt_succ_self _)),
      armWeekly_tab, if_neg (by rw [armDaily_nextId, installEmpty_nextId]; exact Nat.ne_of_lt (Nat.lt_succ_self _)),
      armDaily_tab, if_pos (by rw [installEmpty_nextId])]
  have htabW : (scheduleLectureRemindersAtMidnight env
      (armWeekly env (armDaily env (installEmpty stc c) c user) c user) c).timerTab (stc.nextId + 1) =
      some (weeklyInfo env c user) := by
    rw [E1 (stc.nextId + 1) (by rw [hWnext]; exact Nat.lt_succ_self _),
      armWeekly_tab, if_pos (by rw [armDaily_nextId, installEmpty_nextId])]
  refine ⟨_, hENT, rfl, rfl, ?_, ?_, ?_, ?_⟩
  · unfold activeKind
    rw [htabD]
    simp [dailyInfo]
  · unfold activeKind
    rw [htabW]
    simp [weeklyInfo]
  · intro t ht
    unfold activeKind at ht
    cases hv : (scheduleLectureRemindersAtMidnight env
        (armWeekly env (armDaily env (installEmpty stc c) c user) c user) c).timerTab t with
    | none => rw [hv] at ht; exact absurd ht (by simp)
    | some info =>
      rw [hv] at ht
      dsimp only at ht
      simp only [Bool.and_eq_true, beq_iff_eq] at ht
      obtain ⟨⟨hact, hkind⟩, hchat⟩ := ht
      rcases E2 t info hv with h' | h' | h'
      · rw [armWeekly_tab] at h'
        by_cases hW : t = (armDaily env (installEmpty stc c) c user).nextId
        · rw [if_pos hW] at h'
          injection h' with he
          rw [← he] at hkind
          exact absurd hkind (by simp [weeklyInfo])
        · rw [if_neg hW] at h'
          rw [armDaily_tab] at h'
          by_cases hD : t = (installEmpty stc c).nextId
          · rw [installEmpty_nextId] at hD
            exact hD
          · rw [if_neg hD] at h'
            have hkc := hkill TimerKind.daily t
            unfold activeKind at hkc
            rw [show stc.timerTab t = some info from h'] at hkc
            dsimp only at hkc
            rw [hact, hkind, hchat] at hkc
            simp at hkc
      · rw [h'] at hkind
        exact absurd hkind (by decide)
      · rw [h'] at hkind
        exact absurd hkind (by decide)
  · intro t ht
    unfold activeKind at ht
    cases hv : (scheduleLectureRemindersAtMidnight env
        (armWeekly env (armDaily env (installEmpty stc c) c user) c user) c).timerTab t with
    | none => rw [hv] at ht; exact absurd ht (by simp)
    | some info =>
      rw [hv] at ht
      dsimp only at ht
      simp only [Bool.and_eq_true, beq_iff_eq] at ht
      obtain ⟨⟨hact, hkind⟩, hchat⟩ := ht
      rcases E2 t info hv with h' | h' | h'
      · rw [armWeekly_tab] at h'
        by_cases hW : t = (armDaily env (installEmpty stc c) c user).nextId
        · rw [armDaily_nextId, installEmpty_nextId] at hW
          exact hW
        · rw [if_neg hW] at h'
          rw [armDaily_tab] at h'
          by_cases hD : t = (installEmpty stc c).nextId
          · rw [if_pos hD] at h'
            injection h' with he
            rw [← he] at hkind
            exact absurd hkind (by simp [dailyInfo])
          · rw [if_neg hD] at h'
            have hkc := hkill TimerKind.weekly t
            unfold activeKind at hkc
            rw [show stc.timerTab t = some info from h'] at hkc
            dsimp only at hkc
            rw [hact, hkind, hchat] at hkc
            simp at hkc
      · rw [h'] at hkind
        exact absurd hkind (by decide)
      · rw [h'] at hkind
        exact absurd hkind (by decide)

/-- C1: for every identity whose user record can be read, after
`ScheduleUser` completes the identity's entry holds exactly one armed
daily timer and exactly one armed weekly timer — the recorded handles
are armed, and any armed daily (resp. weekly) timer of the identity is
that recorded one — and the mapping holds exactly one timer-set entry
for the identity.  The hypothesis `OwnedAt` is the ownership invariant
(every armed timer of the identity is recorded in its entry), which
holds initially and is maintained by the scheduler's operations. -/
theorem scheduleUser_one_daily_one_weekly (env : Env) (st : SchedState) (c : ChatID)
    (user : User) (hu : env.getUser c = some user) (hOwn : OwnedAt st c) :
    ∃ d w ts', mapGet (ScheduleUser env st c).timers c = some ts' ∧
      ts'.dailyTimer = some d ∧ ts'.weeklyTimer = some w ∧ d ≠ w ∧
      activeKind (ScheduleUser env st c) TimerKind.daily c d = true ∧
      activeKind (ScheduleUser env st c) TimerKind.weekly c w = true ∧
      (∀ t, activeKind (ScheduleUser env st c) TimerKind.daily c t = true → t = d) ∧
      (∀ t, activeKind (ScheduleUser env st c) TimerKind.weekly c t = true → t = w) ∧
      keyCount (ScheduleUser env st c).timers c = 1 := by
  have hSU : ScheduleUser env st c =
      scheduleLectureRemindersAtMidnight env
        (armWeekly env (armDaily env (installEmpty (CancelUser st c) c) c user) c user) c := by
    unfold ScheduleUser
    rw [hu]
  rw [hSU]
  obtain ⟨ts', hENT, hd, hw, hA, hB, hU1, hU2⟩ :=
    pipeline_one_daily_one_weekly env (CancelUser st c) c user
      (CancelUser_kills_chat st c hOwn)
  refine ⟨(CancelUser st c).nextId, (CancelUser st c).nextId + 1, ts', hENT, hd, hw,
    Nat.ne_of_lt (Nat.lt_succ_self _), hA, hB, hU1, hU2, ?_⟩
  have hkeys : (scheduleLectureRemindersAtMidnight env
      (armWeekly env (armDaily env (installEmpty (CancelUser st c) c) c user) c user) c).timers.map Prod.fst =
      (installEmpty (CancelUser st c) c).timers.map Prod.fst := by
    obtain ⟨E1, E2, E3, E4⟩ := SLRAM_effect env
      (armWeekly env (armDaily env (installEmpty (CancelUser st c) c) c user) c user) c
      { dailyTimer := some (CancelUser st c).nextId,
        weeklyTimer := some ((CancelUser st c).nextId + 1),
        lectureTimers := [], lectureScheduler := none }
      (by rw [armWeekly_mapGet, armDaily_mapGet, installEmpty_mapGet]; rfl) rfl
    rw [E3, armWeekly_keys, armDaily_keys]
  rw [keyCount_of_keys_eq _ _ c hkeys, installEmpty_timers]
  exact keyCount_mapSet_zero _ c UserTimers.empty
    (by rw [CancelUser_timers]; exact keyCount_mapDelete st.timers c)

/-- Witness for C1 at a concrete environment and the initial state
(whose ownership invariant holds vacuously). -/
theorem scheduleUser_one_daily_one_weekly_witness :
    ∃ d w ts', mapGet (ScheduleUser envBase SchedState.initial 1).timers 1 = some ts' ∧
      ts'.dailyTimer = some d ∧ ts'.weeklyTimer = some w ∧ d ≠ w ∧
      activeKind (ScheduleUser envBase SchedState.initial 1) TimerKind.daily 1 d = true ∧
      activeKind (ScheduleUser envBase SchedState.initial 1) TimerKind.weekly 1 w = true ∧
      (∀ t, activeKind (ScheduleUser envBase SchedState.initial 1) TimerKind.daily 1 t = true → t = d) ∧
      (∀ t, activeKind (ScheduleUser envBase SchedState.initial 1) TimerKind.weekly 1 t = true → t = w) ∧
      keyCount (ScheduleUser envBase SchedState.initial 1).timers 1 = 1 :=
  scheduleUser_one_daily_one_weekly envBase SchedState.initial 1 userNoCal rfl
    (fun _ _ h => Option.noConfusion h)

/-! ## C9: ScheduleUser is not serialized per identity -/

/-- Certification of the step decomposition used in the race analysis:
for a readable user record, `ScheduleUser` is exactly the sequence
cancel, install, arm-daily, arm-weekly, arm-midnight-and-replan, and
nothing in the `Scheduler` struct (lines 19-23: only `api`, `db` and
the bare `timers` map — no mutex) orders these steps with respect to a
concurrent invocation for the same identity. -/
theorem scheduleUser_steps (env : Env) (st : SchedState) (c : ChatID) (user : User)
    (hu : env.getUser c = some user) :
    ScheduleUser env st c = scheduleLectureRemindersAtMidnight env
      (armWeekly env (armDaily env (installEmpty (CancelUser st c) c) c user) c user) c := by
  unfold ScheduleUser
  rw [hu]

/-- C9 (the code violates the claim): under the interleaving recorded
in `interleavedC9` — possible because the scheduler has no lock — the
final state has TWO armed daily timers for identity 1 (handles 0 and
1), and handle 0 is not referenced by the identity's entry, so no
subsequent `CancelUser` can ever stop it: it is leaked. -/
theorem scheduleUser_race_two_daily :
    activeKind interleavedC9 TimerKind.daily 1 0 = true ∧
    activeKind interleavedC9 TimerKind.daily 1 1 = true ∧
    mapGet interleavedC9.timers 1 =
      some { dailyTimer := some 1, weeklyTimer := some 4, lectureTimers := [],
             lectureScheduler := some 5 } := by
  decide

/-! ## C2: the weekly digest's Monday-Friday window -/

/-- C2 (counterexample): on a Saturday (model day 6) the code computes
the window `(1, 5)`, the Monday through Friday of the week that is
ending — not `(8, 12)`, the NEXT week's Monday through Friday that the
claim demands for Saturday. -/
theorem weekWindow_saturday_counterexample :
    goWeekday 6 = 6 ∧ weekWindow 6 = (1, 5) ∧ specWeekWindow 6 = (8, 12) ∧
      weekWindow 6 ≠ specWeekWindow 6 := by
  refine ⟨rfl, rfl, rfl, ?_⟩
  decide

/-- C2 (amended): for every `now`, the computed window always spans the
Monday of the Monday-based week containing `now` (Sunday counted as ISO
weekday 7, hence belonging to the week that began six days earlier)
through that Friday; on Monday-Friday this agrees with the spec's
same-week window, while on Saturday/Sunday it is the current (elapsing)
week's Monday-Friday, not the next week's. -/
theorem weekWindow_current_week_monday (d : Int) :
    (weekWindow d).1 = d - (isoWeekday d - 1) ∧
    (weekWindow d).2 = (weekWindow d).1 + 4 ∧
    goWeekday (weekWindow d).1 = 1 ∧
    (weekWindow d).1 ≤ d ∧ d - (weekWindow d).1 < 7 ∧
    (isoWeekday d ≤ 5 → weekWindow d = specWeekWindow d) := by
  have hw : weekWindow d = (d - (isoWeekday d - 1), d - (isoWeekday d - 1) + 4) := rfl
  rw [hw]
  have hmod : 0 ≤ goWeekday d ∧ goWeekday d < 7 := by
    unfold goWeekday
    omega
  refine ⟨rfl, rfl, ?_, ?_, ?_, ?_⟩
  · unfold isoWeekday goWeekday
    unfold goWeekday at hmod
    split <;> omega
  · unfold isoWeekday
    split <;> omega
  · unfold isoWeekday
    split <;> omega
  · intro h
    unfold specWeekWindow
    rw [if_pos h]

/-- Witness for the amended C2 theorem: on a Wednesday (model day 3)
the hypothesis of the agreement conjunct holds and the window is that
same week's Monday (day 1) through Friday (day 5). -/
theorem weekWindow_current_week_monday_witness :
    weekWindow 3 = specWeekWindow 3 ∧ goWeekday (weekWindow 3).1 = 1 :=
  ⟨(weekWindow_current_week_monday 3).2.2.2.2.2 (by decide),
   (weekWindow_current_week_monday 3).2.2.1⟩

/-! ## C5: ScheduleUser on an unreadable user record -/

/-- C5: when the user record cannot be found or read (`err != nil ||
user == nil`, i.e. the lookup yields nothing), `ScheduleUser` is a
complete no-op: the resulting state — timer-set mapping, timer table,
sent log — is the input state, so no timer is armed and no existing
timer set is cancelled. -/
theorem scheduleUser_missing_user_noop (env : Env) (st : SchedState) (c : ChatID)
    (h : env.getUser c = none) : ScheduleUser env st c = st := by
  unfold ScheduleUser
  rw [h]

/-- Witness for C5 at a concrete environment and state. -/
theorem scheduleUser_missing_user_noop_witness :
    ScheduleUser envNoUser stOne 1 = stOne :=
  scheduleUser_missing_user_noop envNoUser stOne 1 rfl

/-! ## C6: CancelUser is idempotent -/

/-- C6: `CancelUser` is idempotent: on an identity with no entry it
returns the state unchanged (no error, no state change), and a second
consecutive call is always a no-op (no error channel exists and the
second call produces no observable effect). -/
theorem cancelUser_idempotent (st : SchedState) (c : ChatID) :
    (mapGet st.timers c = none → CancelUser st c = st) ∧
    CancelUser (CancelUser st c) c = CancelUser st c := by
  refine ⟨CancelUser_absent st c, ?_⟩
  apply CancelUser_absent
  rw [CancelUser_timers, mapGet_mapDelete_self]

/-- Witness for C6: chat 5 has no entry in `stOne`, the first call
leaves the state unchanged, and a repeated cancel of chat 1 is a
no-op. -/
theorem cancelUser_idempotent_witness :
    CancelUser stOne 5 = stOne ∧
    CancelUser (CancelUser stOne 1) 1 = CancelUser stOne 1 :=
  ⟨(cancelUser_idempotent stOne 5).1 (by decide),
   (cancelUser_idempotent stOne 1).2⟩

/-! ## C8: the digest senders are read-only on scheduler state -/

theorem sendDaily_is_sendMessage (env : Env) (st : SchedState) (c : ChatID) :
    ∃ m, sendDailyTimetable env st c = sendMessage st c m := by
  unfold sendDailyTimetable
  cases hu : env.getUser c with
  | none => exact ⟨_, rfl⟩
  | some user =>
    dsimp only
    split
    · exact ⟨_, rfl⟩
    · cases hc : env.fetchCalendar user.webCalURL with
      | error e => exact ⟨_, rfl⟩
      | ok cal =>
        dsimp only
        cases hl : env.getLectures cal env.today with
        | error e => exact ⟨_, rfl⟩
        | ok lectures =>
          dsimp only
          split
          · exact ⟨_, rfl⟩
          · exact ⟨_, rfl⟩

theorem sendWeekly_is_sendMessage (env : Env) (st : SchedState) (c : ChatID) :
    ∃ m, sendWeeklyTimetable env st c = sendMessage st c m := by
  unfold sendWeeklyTimetable
  cases hu : env.getUser c with
  | none => exact ⟨_, rfl⟩
  | some user =>
    dsimp only
    split
    · exact ⟨_, rfl⟩
    · cases hc : env.fetchCalendar user.webCalURL with
      | error e => exact ⟨_, rfl⟩
      | ok cal =>
        dsimp only
        cases hl : env.getLecturesInRange cal (weekWindow env.today).1 (weekWindow env.today).2 with
        | error e => exact ⟨_, rfl⟩
        | ok lecturesMap =>
          dsimp only
          split
          · exact ⟨_, rfl⟩
          · exact ⟨_, rfl⟩

/-- C8: for every identity and every outcome, the daily and weekly
digest senders leave the identity-to-timer-set mapping, the timer
table, and the timer counter unchanged: they never arm, cancel or
otherwise touch a timer, only append one message to the sent log. -/
theorem digest_senders_read_only (env : Env) (st : SchedState) (c : ChatID) :
    (sendDailyTimetable env st c).timers = st.timers ∧
    (sendDailyTimetable env st c).timerTab = st.timerTab ∧
    (sendDailyTimetable env st c).nextId = st.nextId ∧
    (sendWeeklyTimetable env st c).timers = st.timers ∧
    (sendWeeklyTimetable env st c).timerTab = st.timerTab ∧
    (sendWeeklyTimetable env st c).nextId = st.nextId := by
  obtain ⟨m1, h1⟩ := sendDaily_is_sendMessage env st c
  obtain ⟨m2, h2⟩ := sendWeekly_is_sendMessage env st c
  rw [h1, h2]
  exact ⟨rfl, rfl, rfl, rfl, rfl, rfl⟩

end UclBot
